import Mathlib

/-!
Verification of `newline-checker` (`main.go`): a tool that walks a directory
tree, classifies files as text or binary, and reports or fixes files that do
not end with a trailing newline byte.

The embedding below follows `main.go` function by function:
* `isBinary`          — the binary classifier (`main.go` lines 13–35);
* `shouldSkipFile`    — the path filter (`main.go` lines 38–66);
* `checkAndFixFile`   — per-file check/fix (`main.go` lines 69–103);
* `processRepository` — the traversal engine (`main.go` lines 106–180).

File contents are lists of bytes (`List Nat`, each entry a byte value).
Path strings are modelled as their character lists (`List Char`).  The
target platform's path separator is `/`, so `filepath.ToSlash` is the
identity and `strings.Split(path, "/")` is `splitSlash` below.  I/O is
modelled by per-file `readOk` / `writeOk` flags: a `false` flag makes the
corresponding `os.ReadFile` / `os.WriteFile` call fail, and
`checkAndFixFile` then returns `none` (the Go error return).
-/

namespace NewlineChecker

/-- File contents as a list of byte values. -/
abbrev Bytes := List Nat

/-- A path string, as its list of characters. -/
abbrev PathStr := List Char

/-- The count of bytes below 0x20 other than `\n` (10), `\r` (13), `\t` (9):
the `nonPrintable` counter of the loop in `main.go` lines 26–31. -/
def nonPrintableCount (data : Bytes) : Nat :=
  data.countP (fun b => b < 32 && b != 10 && b != 13 && b != 9)

/-- `isBinary` from `main.go` lines 13–35.  Empty data is not binary; any
0x00 byte means binary; otherwise binary iff non-printable bytes exceed 30%
of the length.  The Go source compares
`float64(nonPrintable)/float64(len(data)) > 0.3`; we embed this as the exact
rational comparison `10 * nonPrintable > 3 * len`.  The two agree: rounding
is monotone, so a ratio ≤ 3/10 rounds to a double ≤ double(0.3) and compares
false; and for every length below 2^50 a ratio > 3/10 exceeds 3/10 by more
than the distance from double(0.3) up to 3/10 plus the division's rounding
error, so its rounding stays above double(0.3) and compares true. -/
def isBinary (data : Bytes) : Bool :=
  if data.isEmpty then false
  else if data.any (fun b => b == 0) then true
  else decide (10 * nonPrintableCount data > 3 * data.length)

/-- The fixed deny-list `binaryExts` of `main.go` lines 48–56. -/
def binaryExts : List PathStr :=
  [".exe".data, ".dll".data, ".so".data, ".dylib".data, ".a".data, ".o".data,
   ".jpg".data, ".jpeg".data, ".png".data, ".gif".data, ".bmp".data,
   ".ico".data, ".svg".data,
   ".mp3".data, ".mp4".data, ".avi".data, ".mov".data, ".wav".data,
   ".zip".data, ".tar".data, ".gz".data, ".bz2".data, ".7z".data, ".rar".data,
   ".pdf".data, ".doc".data, ".docx".data, ".xls".data, ".xlsx".data,
   ".pyc".data, ".pyo".data, ".class".data, ".jar".data,
   ".db".data, ".sqlite".data, ".sqlite3".data]

/-- `strings.Split(s, "/")`: cut the string at every `/`.  The empty string
yields `[""]`, and adjacent separators yield empty segments, as in Go. -/
def splitSlash : PathStr → List PathStr
  | [] => [[]]
  | c :: rest =>
    if c = '/' then [] :: splitSlash rest
    else
      match splitSlash rest with
      | s :: ss => (c :: s) :: ss
      | [] => [[c]]

/-- The per-segment test of `main.go` line 42:
`strings.HasPrefix(part, ".") && part != "."`. -/
def hiddenSegment (part : PathStr) : Bool :=
  part.head? == some '.' && part != ['.']

/-- Helper for `fileExt`: walks the path's characters from the end (the
first argument accumulates the characters already passed, in original
order).  Stops at a path separator with no extension, or at a dot with the
dot and everything after it. -/
def extFromRev (acc : PathStr) : PathStr → PathStr
  | [] => []
  | c :: rest =>
    if c = '/' then []
    else if c = '.' then c :: acc
    else extFromRev (c :: acc) rest

/-- Go's `filepath.Ext`: the suffix beginning at the final dot in the final
element of the path, empty if there is no dot.  (Go scans bytes from the end
of the path until a path separator; on the target platform the separator is
`/`.) -/
def fileExt (path : PathStr) : PathStr :=
  extFromRev [] path.reverse

/-- Go's `strings.ToLower` restricted to the ASCII range (the deny-list
entries are all ASCII, where the two functions agree). -/
def lowerStr (s : PathStr) : PathStr :=
  s.map Char.toLower

/-- `shouldSkipFile` from `main.go` lines 38–66: skip when some
`/`-separated segment is hidden (starts with `.` and is not `"."`), or when
the lowercased extension is in the deny-list.  The Go loops with early
`return true` are the two disjuncts. -/
def shouldSkipFile (path : PathStr) : Bool :=
  (splitSlash path).any hiddenSegment
    || binaryExts.contains (lowerStr (fileExt path))

/-- `bytes.HasSuffix(data, []byte("\n"))` (`main.go` line 87): the last byte
is 0x0A. -/
def endsWithNewline (data : Bytes) : Bool :=
  data.getLast? == some 10

/-- A regular file or directory entry visited by `filepath.Walk`.  `path` is
the path relative to the walk root (the `relPath` of `main.go` line 121);
`readOk` / `writeOk` say whether `os.ReadFile` / `os.WriteFile` on this file
succeed. -/
structure File where
  path : PathStr
  content : Bytes
  readOk : Bool
  writeOk : Bool
  isDir : Bool
deriving Repr, DecidableEq

/-- The result of a successful `checkAndFixFile` call: the returned
`endsWithNewline` boolean, the file's content after the call, and the
permission bits passed to `os.WriteFile` if a write happened. -/
structure CheckResult where
  endsNl : Bool
  newContent : Bytes
  wrotePerm : Option Nat
deriving Repr, DecidableEq

/-- `checkAndFixFile` from `main.go` lines 69–103.  `none` is the error
return (read failure, or write failure in the fix branch; a failed write
leaves the content unchanged in this model).  Empty and binary files return
`true` ("skip" by reporting them as fine); a missing newline in fix mode
appends one byte 0x0A and rewrites the file with permission `0o644`,
returning `false`. -/
def checkAndFixFile (f : File) (fix : Bool) : Option CheckResult :=
  if !f.readOk then none
  else if f.content.isEmpty then some ⟨true, f.content, none⟩
  else if isBinary f.content then some ⟨true, f.content, none⟩
  else
    let e := endsWithNewline f.content
    if !e && fix then
      if f.writeOk then some ⟨false, f.content ++ [10], some 0o644⟩
      else none
    else some ⟨e, f.content, none⟩

/-- The counters and the missing-newline list of `processRepository`
(`main.go` lines 107–108). -/
structure Stats where
  totalFiles : Nat
  fixedFiles : Nat
  skippedFiles : Nat
  problematicFiles : List PathStr
deriving Repr, DecidableEq

/-- All counters zero, list empty (`var` zero values, `main.go` 107–108). -/
def Stats.init : Stats := ⟨0, 0, 0, []⟩

/-- One execution of the walk callback (`main.go` lines 110–151) on a single
entry: updates the statistics and returns the entry's state after the visit.
Directories are passed over; skipped files bump `skippedFiles`; otherwise
`totalFiles` is bumped, the file is checked (and possibly fixed), an error
leaves the remaining counters untouched, and a missing newline bumps
`fixedFiles` (fix mode) or appends the relative path to `problematicFiles`
(check mode). -/
def walkStep (fix : Bool) (s : Stats) (f : File) : Stats × File :=
  if f.isDir then (s, f)
  else if shouldSkipFile f.path then
    ({ s with skippedFiles := s.skippedFiles + 1 }, f)
  else
    let s1 : Stats := { s with totalFiles := s.totalFiles + 1 }
    match checkAndFixFile f fix with
    | none => (s1, f)
    | some r =>
      let f1 : File := { f with content := r.newContent }
      if !r.endsNl then
        if fix then ({ s1 with fixedFiles := s1.fixedFiles + 1 }, f1)
        else ({ s1 with problematicFiles := s1.problematicFiles ++ [f.path] }, f1)
      else (s1, f1)

/-- The walk over a list of entries in visitation order, threading the
statistics and collecting the entries' states after the run. -/
def processFiles (fix : Bool) (s : Stats) : List File → Stats × List File
  | [] => (s, [])
  | f :: rest =>
    let p := walkStep fix s f
    let q := processFiles fix p.1 rest
    (q.1, p.2 :: q.2)

/-- `processRepository` from `main.go` lines 106–180, restricted to the
traversal itself (summary printing only reads the statistics).  The input
list is the sequence of entries `filepath.Walk` visits, in order; the result
is the final statistics and the tree's state after the run. -/
def processRepository (files : List File) (fix : Bool) : Stats × List File :=
  processFiles fix Stats.init files

/-- The effect of one visit on the file itself, as a function of the file
alone (the statistics do not influence it). -/
def stepFile (fix : Bool) (f : File) : File :=
  if f.isDir then f
  else if shouldSkipFile f.path then f
  else
    match checkAndFixFile f fix with
    | none => f
    | some r => { f with content := r.newContent }

/-- A visited entry that enters the checked counters: a regular file not
skipped by the path filter (`main.go` lines 116, 127, 132). -/
def isCounted (f : File) : Bool :=
  !f.isDir && !shouldSkipFile f.path

/-- A checked file reported fine: `checkAndFixFile` succeeded and returned
`true` (newline present, or empty, or binary). -/
def outcomeFine (fix : Bool) (f : File) : Bool :=
  isCounted f &&
    (match checkAndFixFile f fix with
     | some r => r.endsNl
     | none => false)

/-- A checked file reported as missing its newline: `checkAndFixFile`
succeeded and returned `false`.  In fix mode these are the fixed files, in
check mode the entries of the missing-newline list. -/
def outcomeNotNl (fix : Bool) (f : File) : Bool :=
  isCounted f &&
    (match checkAndFixFile f fix with
     | some r => !r.endsNl
     | none => false)

/-- A checked file whose visit hit a per-file read or write error. -/
def outcomeErr (fix : Bool) (f : File) : Bool :=
  isCounted f && (checkAndFixFile f fix).isNone

/-- The number of checked-and-fine files of a run. -/
def countFine (fix : Bool) (fs : List File) : Nat :=
  fs.countP (fun f => outcomeFine fix f)

/-- The number of checked files whose visit errored. -/
def countErr (fix : Bool) (fs : List File) : Nat :=
  fs.countP (fun f => outcomeErr fix f)

end NewlineChecker

namespace NewlineChecker

/-! ### Helper lemmas about single steps -/

/-- In check mode a successful visit never changes the content. -/
theorem checkAndFixFile_false_content (f : File) (r : CheckResult)
    (h : checkAndFixFile f false = some r) : r.newContent = f.content := by
  unfold checkAndFixFile at h
  by_cases hr : f.readOk
  · by_cases hemp : f.content.isEmpty
    · simp [hr, hemp] at h
      simp [← h]
    · by_cases hbin : isBinary f.content
      · simp [hr, hemp, hbin] at h
        simp [← h]
      · simp [hr, hemp, hbin] at h
        simp [← h]
  · simp [hr] at h

/-- The file state after one visit does not depend on the statistics. -/
theorem walkStep_snd (fix : Bool) (s : Stats) (f : File) :
    (walkStep fix s f).2 = stepFile fix f := by
  unfold walkStep stepFile
  by_cases hd : f.isDir
  · simp [hd]
  · by_cases hs : shouldSkipFile f.path
    · simp [hd, hs]
    · cases h : checkAndFixFile f fix with
      | none => simp [hd, hs, h]
      | some r =>
        by_cases he : r.endsNl
        · simp [hd, hs, h, he]
        · cases fix <;> simp [hd, hs, h, he]

/-- The tree state after a run is the per-file step mapped over the input. -/
theorem processFiles_snd (fix : Bool) (fs : List File) :
    ∀ s, (processFiles fix s fs).2 = fs.map (stepFile fix) := by
  induction fs with
  | nil => intro s; simp [processFiles]
  | cons f rest ih => intro s; simp [processFiles, ih, walkStep_snd]

/-- In check mode, one visit leaves the file exactly as it was. -/
theorem stepFile_false_eq (f : File) : stepFile false f = f := by
  obtain ⟨p, c, ro, wo, d⟩ := f
  unfold stepFile
  by_cases hd : d
  · simp [hd]
  · by_cases hs : shouldSkipFile p
    · simp [hd, hs]
    · cases h : checkAndFixFile ⟨p, c, ro, wo, d⟩ false with
      | none => simp [hd, hs, h]
      | some r =>
        have hc := checkAndFixFile_false_content _ r h
        simp [hd, hs, h, hc]

end NewlineChecker

namespace NewlineChecker

/-- One visit bumps the total-checked counter exactly on counted files. -/
theorem walkStep_totalFiles (fix : Bool) (s : Stats) (f : File) :
    ((walkStep fix s f).1).totalFiles
      = s.totalFiles + (if isCounted f then 1 else 0) := by
  unfold walkStep isCounted
  by_cases hd : f.isDir
  · simp [hd]
  · by_cases hs : shouldSkipFile f.path
    · simp [hd, hs]
    · cases h : checkAndFixFile f fix with
      | none => simp [hd, hs, h]
      | some r =>
        by_cases he : r.endsNl
        · simp [hd, hs, h, he]
        · cases fix <;> simp [hd, hs, h, he]

/-- One visit bumps the skipped counter exactly on skipped regular files. -/
theorem walkStep_skippedFiles (fix : Bool) (s : Stats) (f : File) :
    ((walkStep fix s f).1).skippedFiles
      = s.skippedFiles + (if !f.isDir && shouldSkipFile f.path then 1 else 0) := by
  unfold walkStep
  by_cases hd : f.isDir
  · simp [hd]
  · by_cases hs : shouldSkipFile f.path
    · simp [hd, hs]
    · cases h : checkAndFixFile f fix with
      | none => simp [hd, hs, h]
      | some r =>
        by_cases he : r.endsNl
        · simp [hd, hs, h, he]
        · cases fix <;> simp [hd, hs, h, he]

/-- One visit bumps the fixed counter exactly on missing-newline files in
fix mode. -/
theorem walkStep_fixedFiles (fix : Bool) (s : Stats) (f : File) :
    ((walkStep fix s f).1).fixedFiles
      = s.fixedFiles + (if fix && outcomeNotNl fix f then 1 else 0) := by
  unfold walkStep outcomeNotNl isCounted
  by_cases hd : f.isDir
  · simp [hd]
  · by_cases hs : shouldSkipFile f.path
    · simp [hd, hs]
    · cases h : checkAndFixFile f fix with
      | none => simp [hd, hs, h]
      | some r =>
        by_cases he : r.endsNl
        · simp [hd, hs, h, he]
        · cases fix <;> simp [hd, hs, h, he]

/-- One visit appends to the missing-newline list exactly on missing-newline
files in check mode. -/
theorem walkStep_problematicFiles (fix : Bool) (s : Stats) (f : File) :
    ((walkStep fix s f).1).problematicFiles
      = s.problematicFiles
          ++ (if !fix && outcomeNotNl fix f then [f.path] else []) := by
  unfold walkStep outcomeNotNl isCounted
  by_cases hd : f.isDir
  · simp [hd]
  · by_cases hs : shouldSkipFile f.path
    · simp [hd, hs]
    · cases h : checkAndFixFile f fix with
      | none => simp [hd, hs, h]
      | some r =>
        by_cases he : r.endsNl
        · simp [hd, hs, h, he]
        · cases fix <;> simp [hd, hs, h, he]

/-- Run-level accounting for the total-checked counter. -/
theorem processFiles_totalFiles (fix : Bool) (fs : List File) :
    ∀ s, ((processFiles fix s fs).1).totalFiles
      = s.totalFiles + fs.countP (fun f => isCounted f) := by
  induction fs with
  | nil => intro s; simp [processFiles]
  | cons f rest ih =>
    intro s
    simp only [processFiles]
    rw [ih, walkStep_totalFiles, List.countP_cons]
    omega

/-- Run-level accounting for the skipped counter. -/
theorem processFiles_skippedFiles (fix : Bool) (fs : List File) :
    ∀ s, ((processFiles fix s fs).1).skippedFiles
      = s.skippedFiles + fs.countP (fun f => !f.isDir && shouldSkipFile f.path) := by
  induction fs with
  | nil => intro s; simp [processFiles]
  | cons f rest ih =>
    intro s
    simp only [processFiles]
    rw [ih, walkStep_skippedFiles, List.countP_cons]
    omega

/-- Run-level accounting for the fixed counter. -/
theorem processFiles_fixedFiles (fix : Bool) (fs : List File) :
    ∀ s, ((processFiles fix s fs).1).fixedFiles
      = s.fixedFiles + fs.countP (fun f => fix && outcomeNotNl fix f) := by
  induction fs with
  | nil => intro s; simp [processFiles]
  | cons f rest ih =>
    intro s
    simp only [processFiles]
    rw [ih, walkStep_fixedFiles, List.countP_cons]
    omega

/-- Run-level accounting for the missing-newline list's length. -/
theorem processFiles_problematicLength (fix : Bool) (fs : List File) :
    ∀ s, ((processFiles fix s fs).1).problematicFiles.length
      = s.problematicFiles.length
          + fs.countP (fun f => !fix && outcomeNotNl fix f) := by
  induction fs with
  | nil => intro s; simp [processFiles]
  | cons f rest ih =>
    intro s
    simp only [processFiles]
    rw [ih, walkStep_problematicFiles, List.countP_cons, List.length_append]
    by_cases hp : !fix && outcomeNotNl fix f
    · simp [hp]
      omega
    · simp [hp]

/-- Counting splits along a pointwise partition of the predicate. -/
theorem countP_split {α : Type} (p q r : α → Bool)
    (h : ∀ a, (if r a then (1 : Nat) else 0)
            = (if p a then 1 else 0) + (if q a then 1 else 0)) :
    ∀ l : List α, l.countP r = l.countP p + l.countP q := by
  intro l
  induction l with
  | nil => simp
  | cons a l ih =>
    rw [List.countP_cons, List.countP_cons, List.countP_cons, ih]
    have := h a
    omega

end NewlineChecker

namespace NewlineChecker

/-- Every regular file is either skipped or counted, never both. -/
theorem regular_pointwise (f : File) :
    (if !f.isDir then (1 : Nat) else 0)
      = (if !f.isDir && shouldSkipFile f.path then 1 else 0)
          + (if isCounted f then 1 else 0) := by
  unfold isCounted
  by_cases hd : f.isDir <;> by_cases hs : shouldSkipFile f.path <;> simp [hd, hs]

/-- Every counted file lands in exactly one of the fine, missing-newline and
errored outcomes. -/
theorem bucket_pointwise (fix : Bool) (f : File) :
    (if isCounted f then (1 : Nat) else 0)
      = (if outcomeFine fix f then 1 else 0)
          + ((if outcomeNotNl fix f then 1 else 0)
              + (if outcomeErr fix f then 1 else 0)) := by
  by_cases hc : isCounted f
  · cases h : checkAndFixFile f fix with
    | none => simp [outcomeFine, outcomeNotNl, outcomeErr, hc, h]
    | some r =>
      by_cases he : r.endsNl <;>
        simp [outcomeFine, outcomeNotNl, outcomeErr, hc, h, he]
  · simp [outcomeFine, outcomeNotNl, outcomeErr, hc]

/-- A read-error file is a counted non-fine, non-missing, errored outcome
whenever it is a regular non-skipped file. -/
theorem checkAndFixFile_none_of_readError (f : File) (fix : Bool)
    (hr : f.readOk = false) : checkAndFixFile f fix = none := by
  unfold checkAndFixFile
  simp [hr]

/-- A concrete regular text file (content "x", no trailing newline) whose
read fails. -/
def badFile : File := ⟨"a.txt".data, [120], false, true, false⟩

/-- A concrete regular text file (content "x", no trailing newline) with
working I/O. -/
def wFile : File := ⟨"b.txt".data, [120], true, true, false⟩

end NewlineChecker

namespace NewlineChecker

/-- Counting splits along a pointwise three-way partition. -/
theorem countP_split3 {α : Type} (p q r t : α → Bool)
    (h : ∀ a, (if t a then (1 : Nat) else 0)
            = (if p a then 1 else 0)
                + ((if q a then 1 else 0) + (if r a then 1 else 0))) :
    ∀ l : List α, l.countP t = l.countP p + (l.countP q + l.countP r) := by
  intro l
  induction l with
  | nil => simp
  | cons a l ih =>
    rw [List.countP_cons, List.countP_cons, List.countP_cons,
      List.countP_cons, ih]
    have := h a
    omega

/-- A missing-newline outcome is counted as fixed in fix mode and as a list
entry in check mode, exclusively. -/
theorem notNl_mode_pointwise (fix : Bool) (f : File) :
    (if outcomeNotNl fix f then (1 : Nat) else 0)
      = (if fix && outcomeNotNl fix f then 1 else 0)
          + (if !fix && outcomeNotNl fix f then 1 else 0) := by
  cases fix with
  | false => by_cases hn : outcomeNotNl false f <;> simp [hn]
  | true => by_cases hn : outcomeNotNl true f <;> simp [hn]

/-- C9 (confirmed): in check mode no file is ever written or mutated — the
tree after the run equals the tree before the run, byte for byte; files
missing a trailing newline are only recorded in the missing-newline list. -/
theorem check_mode_no_mutation (files : List File) :
    (processRepository files false).2 = files := by
  rw [processRepository, processFiles_snd]
  calc files.map (stepFile false)
      = files.map id := List.map_congr_left (fun f _ => stepFile_false_eq f)
    _ = files := List.map_id files

/-- C2 (amended): after a run, skipped plus total-checked equals the number
of visited regular files; and total-checked equals fine plus fixed plus
missing plus the number of files whose per-file read/write errored.  (The
claim's four-bucket partition holds once the errored files — which the code
counts into the total but into no bucket — get a bucket of their own.) -/
theorem bucket_invariant_with_error_bucket (files : List File) (fix : Bool) :
    (processRepository files fix).1.skippedFiles
        + (processRepository files fix).1.totalFiles
      = files.countP (fun f => !f.isDir)
    ∧ (processRepository files fix).1.totalFiles
      = countFine fix files + (processRepository files fix).1.fixedFiles
          + (processRepository files fix).1.problematicFiles.length
          + countErr fix files := by
  rw [processRepository]
  have ht := processFiles_totalFiles fix files Stats.init
  have hsk := processFiles_skippedFiles fix files Stats.init
  have hfx := processFiles_fixedFiles fix files Stats.init
  have hpl := processFiles_problematicLength fix files Stats.init
  have h0t : Stats.init.totalFiles = 0 := rfl
  have h0s : Stats.init.skippedFiles = 0 := rfl
  have h0f : Stats.init.fixedFiles = 0 := rfl
  have h0p : Stats.init.problematicFiles.length = 0 := rfl
  constructor
  · rw [ht, hsk]
    have hsplit := countP_split (fun f => !f.isDir && shouldSkipFile f.path)
      (fun f => isCounted f) (fun f => !f.isDir)
      (fun f => regular_pointwise f) files
    omega
  · rw [ht, hfx, hpl]
    have hsplit3 := countP_split3 (fun f => outcomeFine fix f)
      (fun f => outcomeNotNl fix f) (fun f => outcomeErr fix f)
      (fun f => isCounted f) (fun f => bucket_pointwise fix f) files
    have hmode := countP_split (fun f => fix && outcomeNotNl fix f)
      (fun f => !fix && outcomeNotNl fix f) (fun f => outcomeNotNl fix f)
      (fun f => notNl_mode_pointwise fix f) files
    unfold countFine countErr
    omega

/-- C2 (counterexample): a single regular file whose read fails is counted
into the total, but falls into none of the four buckets — the claim's
equation total = fine + fixed + missing fails on that run (1 versus 0). -/
theorem bucket_invariant_fails_on_readError :
    (processRepository [badFile] false).1.totalFiles = 1
    ∧ countFine false [badFile]
        + (processRepository [badFile] false).1.fixedFiles
        + (processRepository [badFile] false).1.problematicFiles.length
      = 0 := by
  decide

end NewlineChecker

namespace NewlineChecker

/-- C1 (counterexample): a run over a single regular, non-skipped file whose
read fails ends with total-checked = 1.  The claim says such a file
contributes to no counter — total-checked would have to be 0. -/
theorem readError_counted_in_total :
    (processRepository [badFile] false).1 = ⟨1, 0, 0, []⟩ := by
  decide

/-- C1 (amended): when a regular, non-skipped file's read fails, the error
is handled for that file only and traversal continues on the rest, and the
file is excluded from the skipped and fixed counters and from the
missing-newline list — but it is counted into the total-checked counter,
which the code increments before reading. -/
theorem readError_only_total_and_continue (fix : Bool) (s : Stats) (f : File)
    (rest : List File) (hd : f.isDir = false)
    (hs : shouldSkipFile f.path = false) (hr : f.readOk = false) :
    processFiles fix s (f :: rest)
      = ((processFiles fix { s with totalFiles := s.totalFiles + 1 } rest).1,
         f :: (processFiles fix
                { s with totalFiles := s.totalFiles + 1 } rest).2) := by
  have hcf : checkAndFixFile f fix = none :=
    checkAndFixFile_none_of_readError f fix hr
  simp only [processFiles]
  simp [walkStep, hd, hs, hcf]

/-- Witness for the amended C1 at a concrete read-error file. -/
theorem readError_only_total_and_continue_witness :
    (badFile.isDir = false ∧ shouldSkipFile badFile.path = false
      ∧ badFile.readOk = false)
    ∧ processFiles false Stats.init [badFile]
        = ((processFiles false
              { Stats.init with totalFiles := Stats.init.totalFiles + 1 } []).1,
           badFile :: (processFiles false
              { Stats.init with totalFiles := Stats.init.totalFiles + 1 } []).2) :=
  ⟨⟨by decide, by decide, by decide⟩,
    readError_only_total_and_continue false Stats.init badFile []
      (by decide) (by decide) (by decide)⟩

/-- C8 (confirmed): any buffer containing a 0x00 byte is classified binary,
irrespective of its other contents or length. -/
theorem null_byte_binary (data : Bytes) (h : 0 ∈ data) :
    isBinary data = true := by
  unfold isBinary
  have hne : data.isEmpty = false := by
    cases data with
    | nil => simp at h
    | cons a l => simp
  have hz : data.any (fun b => b == 0) = true :=
    List.any_eq_true.mpr ⟨0, h, by simp⟩
  simp [hne, hz]

/-- Witness for C8 at the one-byte buffer 0x00. -/
theorem null_byte_binary_witness :
    (0 ∈ ([0] : Bytes)) ∧ isBinary [0] = true :=
  ⟨by decide, null_byte_binary [0] (by decide)⟩

/-- C3 (confirmed): on a non-empty buffer without 0x00 bytes the classifier
answers binary exactly when the non-printable count (bytes below 0x20 other
than 0x0A, 0x0D, 0x09) exceeds 30% of the length — as exact ratios,
10·count > 3·length — and in particular answers not-binary at exactly
30%. -/
theorem binary_threshold_iff (data : Bytes) (hne : data ≠ [])
    (hz : ∀ b ∈ data, b ≠ 0) :
    (isBinary data = true ↔ 10 * nonPrintableCount data > 3 * data.length)
    ∧ (10 * nonPrintableCount data = 3 * data.length
        → isBinary data = false) := by
  have hemp : data.isEmpty = false := by
    cases data with
    | nil => simp at hne
    | cons a l => simp
  have hany : data.any (fun b => b == 0) = false := by
    rw [List.any_eq_false]
    intro b hb
    simpa using hz b hb
  constructor
  · unfold isBinary
    simp [hemp, hany]
  · intro heq
    unfold isBinary
    simp [hemp, hany]
    omega

/-- Witness for C3 at a boundary buffer: 3 control bytes out of 10
(exactly 30%) is classified not-binary. -/
theorem binary_threshold_iff_witness :
    (([1, 1, 1, 97, 97, 97, 97, 97, 97, 97] : Bytes) ≠ []
      ∧ (∀ b ∈ ([1, 1, 1, 97, 97, 97, 97, 97, 97, 97] : Bytes), b ≠ 0))
    ∧ ((isBinary [1, 1, 1, 97, 97, 97, 97, 97, 97, 97] = true
          ↔ 10 * nonPrintableCount [1, 1, 1, 97, 97, 97, 97, 97, 97, 97]
              > 3 * ([1, 1, 1, 97, 97, 97, 97, 97, 97, 97] : Bytes).length)
        ∧ (10 * nonPrintableCount [1, 1, 1, 97, 97, 97, 97, 97, 97, 97]
              = 3 * ([1, 1, 1, 97, 97, 97, 97, 97, 97, 97] : Bytes).length
            → isBinary [1, 1, 1, 97, 97, 97, 97, 97, 97, 97] = false)) :=
  ⟨⟨by decide, by decide⟩,
    binary_threshold_iff [1, 1, 1, 97, 97, 97, 97, 97, 97, 97]
      (by decide) (by decide)⟩

end NewlineChecker

namespace NewlineChecker

/-- C6 (confirmed): a path one of whose slash-separated segments starts with
a dot and is not the single-dot segment is skipped by the path filter,
regardless of extension. -/
theorem hidden_segment_skips (path : PathStr) (part : PathStr)
    (hmem : part ∈ splitSlash path) (hdot : part.head? = some '.')
    (hne : part ≠ ['.']) : shouldSkipFile path = true := by
  unfold shouldSkipFile
  have hseg : hiddenSegment part = true := by
    unfold hiddenSegment
    simp [hdot, hne]
  have hany : (splitSlash path).any hiddenSegment = true :=
    List.any_eq_true.mpr ⟨part, hmem, hseg⟩
  simp [hany]

/-- Witness for C6 at the path ".git/config" with its hidden segment
".git". -/
theorem hidden_segment_skips_witness :
    (".git".data ∈ splitSlash ".git/config".data
      ∧ (".git".data : PathStr).head? = some '.'
      ∧ (".git".data : PathStr) ≠ ['.'])
    ∧ shouldSkipFile ".git/config".data = true :=
  ⟨⟨by decide, by decide, by decide⟩,
    hidden_segment_skips ".git/config".data ".git".data
      (by decide) (by decide) (by decide)⟩

/-- C7 (confirmed): a path whose lowercased extension (from the final dot of
the final segment, inclusive) is a deny-list entry is skipped by the path
filter; the match is on the lowercased extension, so case-insensitive. -/
theorem denylist_ext_skips (path : PathStr)
    (h : lowerStr (fileExt path) ∈ binaryExts) :
    shouldSkipFile path = true := by
  unfold shouldSkipFile
  have hc : binaryExts.contains (lowerStr (fileExt path)) = true := by
    simpa using h
  simp [hc, h]

/-- Witness for C7: "IMAGE.PNG" has lowercased extension ".png", a deny-list
entry, and is skipped (and so is "image.png", per the same theorem). -/
theorem denylist_ext_skips_witness :
    (lowerStr (fileExt "IMAGE.PNG".data) ∈ binaryExts)
    ∧ shouldSkipFile "IMAGE.PNG".data = true :=
  ⟨by decide, denylist_ext_skips "IMAGE.PNG".data (by decide)⟩

/-- C5 (confirmed): on a readable, writable, non-empty, non-binary file
whose content does not end in 0x0A, one fix pass returns the content with
exactly one 0x0A byte appended — nothing else altered — written with
permission bits 0o644 (rw-r--r--). -/
theorem fix_appends_single_newline (f : File) (hr : f.readOk = true)
    (hw : f.writeOk = true) (hne : f.content ≠ [])
    (hbin : isBinary f.content = false)
    (hnl : endsWithNewline f.content = false) :
    checkAndFixFile f true = some ⟨false, f.content ++ [10], some 0o644⟩ := by
  unfold checkAndFixFile
  have hemp : f.content.isEmpty = false := by
    cases hc : f.content with
    | nil => exact absurd hc hne
    | cons a l => simp
  simp [hr, hemp, hbin, hnl, hw]

/-- Witness for C5 at a concrete one-byte file "x". -/
theorem fix_appends_single_newline_witness :
    (wFile.readOk = true ∧ wFile.writeOk = true ∧ wFile.content ≠ []
      ∧ isBinary wFile.content = false
      ∧ endsWithNewline wFile.content = false)
    ∧ checkAndFixFile wFile true
        = some ⟨false, wFile.content ++ [10], some 0o644⟩ :=
  ⟨⟨by decide, by decide, by decide, by decide, by decide⟩,
    fix_appends_single_newline wFile (by decide) (by decide) (by decide)
      (by decide) (by decide)⟩

/-- C10 (confirmed): appending a single 0x0A byte to a non-empty buffer the
classifier already accepts as text keeps it classified as text, so a file
rewritten by the fix step is never reclassified as binary. -/
theorem fixed_file_stays_text (data : Bytes) (hne : data ≠ [])
    (h : isBinary data = false) : isBinary (data ++ [10]) = false := by
  have hemp : data.isEmpty = false := by
    cases hc : data with
    | nil => exact absurd hc hne
    | cons a l => simp
  have hemp2 : (data ++ [10]).isEmpty = false := by simp
  unfold isBinary at h
  rw [hemp] at h
  simp only [Bool.false_eq_true, if_false] at h
  have hz : data.any (fun b => b == 0) = false := by
    cases hca : data.any (fun b => b == 0) with
    | false => rfl
    | true => rw [hca] at h; simp at h
  rw [hz] at h
  simp only [Bool.false_eq_true, if_false, decide_eq_false_iff_not] at h
  have hz2 : (data ++ [10]).any (fun b => b == 0) = false := by
    rw [List.any_append, hz]
    simp
  have hcount : nonPrintableCount (data ++ [10]) = nonPrintableCount data := by
    unfold nonPrintableCount
    rw [List.countP_append]
    simp
  unfold isBinary
  rw [hemp2, hz2]
  simp only [Bool.false_eq_true, if_false, decide_eq_false_iff_not]
  rw [hcount]
  simp only [List.length_append, List.length_cons, List.length_nil]
  omega

/-- Witness for C10 at the one-byte text buffer "a". -/
theorem fixed_file_stays_text_witness :
    (([97] : Bytes) ≠ [] ∧ isBinary [97] = false)
    ∧ isBinary ([97] ++ [10]) = false :=
  ⟨⟨by decide, by decide⟩, fixed_file_stays_text [97] (by decide) (by decide)⟩

end NewlineChecker

namespace NewlineChecker

/-- A visit only ever rewrites the content: path, I/O flags and kind are
preserved. -/
theorem stepFile_fields (fix : Bool) (f : File) :
    (stepFile fix f).path = f.path ∧ (stepFile fix f).isDir = f.isDir
    ∧ (stepFile fix f).readOk = f.readOk
    ∧ (stepFile fix f).writeOk = f.writeOk := by
  unfold stepFile
  by_cases hd : f.isDir
  · simp [hd]
  · by_cases hs : shouldSkipFile f.path
    · simp [hd, hs]
    · cases h : checkAndFixFile f fix with
      | none => simp [hd, hs, h]
      | some r => simp [hd, hs, h]

/-- A readable file that is empty, binary, or newline-terminated reports
fine in fix mode (and is not rewritten). -/
theorem checkAndFixFile_fine_of_good (g : File) (hr : g.readOk = true)
    (h : g.content.isEmpty = true ∨ isBinary g.content = true
          ∨ endsWithNewline g.content = true) :
    ∃ r, checkAndFixFile g true = some r ∧ r.endsNl = true := by
  unfold checkAndFixFile
  by_cases hemp : g.content.isEmpty
  · exact ⟨⟨true, g.content, none⟩, by simp [hr, hemp], rfl⟩
  · by_cases hbin : isBinary g.content
    · exact ⟨⟨true, g.content, none⟩, by simp [hr, hemp, hbin], rfl⟩
    · have he : endsWithNewline g.content = true := by
        rcases h with h | h | h
        · exact absurd h hemp
        · exact absurd h hbin
        · exact h
      exact ⟨⟨true, g.content, none⟩, by simp [hr, hemp, hbin, he], rfl⟩

/-- After a fix-mode visit of a readable, writable, non-skipped regular
file, the file's content is empty, binary, or ends with a newline. -/
theorem stepFile_content_good (f : File) (hd : f.isDir = false)
    (hs : shouldSkipFile f.path = false) (hr : f.readOk = true)
    (hw : f.writeOk = true) :
    (stepFile true f).content.isEmpty = true
    ∨ isBinary (stepFile true f).content = true
    ∨ endsWithNewline (stepFile true f).content = true := by
  unfold stepFile
  simp only [hd, hs, Bool.false_eq_true, if_false]
  unfold checkAndFixFile
  by_cases hemp : f.content.isEmpty
  · simp [hr, hemp]
  · by_cases hbin : isBinary f.content
    · simp [hr, hemp, hbin]
    · by_cases he : endsWithNewline f.content
      · simp [hr, hemp, hbin, he]
      · simp only [hr, hemp, hbin, he, hw, Bool.not_true, Bool.not_false,
          Bool.true_and, Bool.false_eq_true, if_false, if_true]
        right; right
        unfold endsWithNewline
        simp [List.getLast?_concat]

/-- After an error-free fix-mode visit, a file can never again be reported
as missing its newline. -/
theorem outcomeNotNl_stepFile_fix (f : File) (hr : f.readOk = true)
    (hw : f.writeOk = true) : outcomeNotNl true (stepFile true f) = false := by
  obtain ⟨hpath, hdir, hread, hwrite⟩ := stepFile_fields true f
  by_cases hd : f.isDir
  · have : stepFile true f = f := by unfold stepFile; simp [hd]
    simp [outcomeNotNl, isCounted, this, hd]
  · by_cases hs : shouldSkipFile f.path
    · have : stepFile true f = f := by unfold stepFile; simp [hd, hs]
      simp [outcomeNotNl, isCounted, this, hs]
    · have hgood := stepFile_content_good f (by simpa using hd)
        (by simpa using hs) hr hw
      have hr2 : (stepFile true f).readOk = true := by rw [hread]; exact hr
      obtain ⟨r, hcf, he⟩ := checkAndFixFile_fine_of_good _ hr2 hgood
      simp [outcomeNotNl, hcf, he]

/-- C4 (confirmed): running fix mode twice in succession on the same tree —
with no read or write failures, i.e. no interference — fixes zero files on
the second run: every file the first run fixed or left untouched is then
newline-terminated, empty, binary, or skipped. -/
theorem fix_idempotent (files : List File)
    (h : ∀ f ∈ files, f.readOk = true ∧ f.writeOk = true) :
    (processRepository (processRepository files true).2 true).1.fixedFiles
      = 0 := by
  rw [processRepository, processRepository, processFiles_snd,
    processFiles_fixedFiles]
  have h0 : Stats.init.fixedFiles = 0 := rfl
  rw [h0, Nat.zero_add]
  rw [List.countP_eq_zero]
  intro g hg
  obtain ⟨f, hf, rfl⟩ := List.mem_map.mp hg
  have hn := outcomeNotNl_stepFile_fix f (h f hf).1 (h f hf).2
  simp [hn]

/-- Witness for C4 at a one-file tree whose file lacks the newline: the
first run fixes it, the second fixes nothing. -/
theorem fix_idempotent_witness :
    (∀ f ∈ [wFile], f.readOk = true ∧ f.writeOk = true)
    ∧ (processRepository (processRepository [wFile] true).2 true).1.fixedFiles
        = 0 :=
  ⟨by decide, fix_idempotent [wFile] (by decide)⟩

end NewlineChecker
